import Mathlib

/-!
Verification of the keyboardtester event-to-state pipeline (src/main.go).

Shallow embedding conventions:
* tcell key codes and modifier masks are embedded as the numeric values of the
  tcell/v2 constants the program uses (`KeyCtrlA = 1` … `KeyCtrlZ = 26`,
  `KeyBackspace = 8`, `KeyTab = 9`, `KeyEnter = 13`, `KeyEscape = 27`,
  `KeyBackspace2 = 127`, `KeyRune = 256`, arrow/nav/function keys 257…290;
  `ModShift = 1`, `ModCtrl = 2`, `ModAlt = 4`).
* `map[string]bool` used as a set of pressed labels is embedded as a
  duplicate-free insertion list; only membership is ever observed.
* `time.Now().Format("15:04:05")` and `s.Size()` are environment inputs, so the
  loop body takes the timestamp string and the screen height as parameters.
* The terminal surface calls made by the loop body (`drawAll`+`Show` after a
  key event, `Sync` after a resize) are recorded as a list of `SurfaceOp`.
* Go's `unicode.IsLetter`/`unicode.IsUpper`/`strings.ToUpper` are embedded at
  the ASCII level (`Char.isAlpha`/`Char.isUpper`/`Char.toUpper`); every label
  and rune the claims touch is ASCII.
-/

namespace KeyboardTester

/-- tcell.KeyRune -/
def keyRune : Nat := 256

/-- tcell.KeyEscape (= KeyESC) -/
def keyEscape : Nat := 27

/-- tcell.KeyEnter (= KeyCR) -/
def keyEnter : Nat := 13

/-- tcell.KeyTab (= KeyTAB) -/
def keyTab : Nat := 9

/-- tcell.KeyBackspace (= KeyBS) -/
def keyBackspace : Nat := 8

/-- tcell.KeyBackspace2 (= KeyDEL) -/
def keyBackspace2 : Nat := 127

/-- tcell.KeyCtrlA (= KeySOH) -/
def keyCtrlA : Nat := 1

/-- tcell.KeyCtrlZ (= KeySUB) -/
def keyCtrlZ : Nat := 26

/-- tcell.ModShift -/
def modShift : Nat := 1

/-- tcell.ModCtrl -/
def modCtrl : Nat := 2

/-- tcell.ModAlt -/
def modAlt : Nat := 4

/-- The nav/function key codes that `labelFromEvent` sends to `tcell.KeyNames`:
F1..F12 = 279..290, Home 268, End 269, Insert 270, Delete 271,
PgUp 266, PgDn 267, Up 257, Down 258, Left 260, Right 259. -/
def navKeyCodes : List Nat :=
  [279, 280, 281, 282, 283, 284, 285, 286, 287, 288, 289, 290,
   268, 269, 270, 271, 266, 267, 257, 258, 260, 259]

/-- The fragment of the `tcell.KeyNames` map that the program looks up
(it is only consulted at the codes in `navKeyCodes`). -/
def keyNamesTable : List (Nat × String) :=
  [(257, "Up"), (258, "Down"), (259, "Right"), (260, "Left"),
   (266, "PgUp"), (267, "PgDn"), (268, "Home"), (269, "End"),
   (270, "Insert"), (271, "Delete"),
   (279, "F1"), (280, "F2"), (281, "F3"), (282, "F4"), (283, "F5"),
   (284, "F6"), (285, "F7"), (286, "F8"), (287, "F9"), (288, "F10"),
   (289, "F11"), (290, "F12")]

/-- Lookup in the `tcell.KeyNames` map (a missing code reads as the zero
value "" in Go; the program never looks one up). -/
def keyNames (k : Nat) : String :=
  match keyNamesTable.find? (fun p => p.1 == k) with
  | some p => p.2
  | none => ""

/-- A tcell EventKey: `ev.Key()`, `ev.Modifiers()`, `ev.Rune()` (the rune is
only consulted when the key code is `keyRune`). -/
structure EventKey where
  key : Nat
  mods : Nat
  rn : Char
deriving DecidableEq

/-- The two event kinds the main loop handles (other tcell events fall through
the type switch unhandled). -/
inductive Event where
  | key : EventKey → Event
  | resize : Event
deriving DecidableEq

/-- Key represents a key on the keyboard (struct Key of main.go). -/
structure Key where
  label : String
  x : Nat
  y : Nat
  w : Nat
  h : Nat
deriving DecidableEq

/-- One row of `initKeys`: keys laid out left to right starting at `x`,
width = len(label)+2, height 3, 1-column gap (`x += w + 1`). -/
def addRowFrom (y : Nat) : Nat → List String → List Key
  | _, [] => []
  | x, L :: rest =>
    { label := L, x := x, y := y, w := L.length + 2, h := 3 }
      :: addRowFrom y (x + (L.length + 2) + 1) rest

/-- addRow helper of initKeys (each call starts at x = 0). -/
def addRow (labels : List String) (y : Nat) : List Key := addRowFrom y 0 labels

/-- The apostrophe key label of the home row, written via its code 39. -/
def apostropheLabel : String := String.singleton (Char.ofNat 39)

/-- initKeys of main.go: the fixed keyboard layout. -/
def initKeys : List Key :=
  addRow ["Esc", "F1", "F2", "F3", "F4", "F5", "F6", "F7", "F8", "F9", "F10",
          "F11", "F12"] 0
  ++ addRow ["`", "1", "2", "3", "4", "5", "6", "7", "8", "9", "0", "-", "=",
             "Backspace"] 4
  ++ addRow ["Tab", "Q", "W", "E", "R", "T", "Y", "U", "I", "O", "P", "[", "]",
             "\\"] 8
  ++ addRow ["CapsLock", "A", "S", "D", "F", "G", "H", "J", "K", "L", ";",
             apostropheLabel, "Enter"] 12
  ++ addRow ["Shift", "Z", "X", "C", "V", "B", "N", "M", ",", ".", "/",
             "Shift"] 16
  ++ addRow ["Fn", "Ctrl", "Win", "Alt", "Space", "Alt", "Win", "Menu",
             "Ctrl"] 20
  ++ addRow ["Insert", "Home", "PgUp"] 24
  ++ addRow ["Delete", "End", "PgDn"] 28
  ++ addRow ["Left", "Down", "Right", "Up"] 32

/-- The separator row: `keys[len(keys)-1].Y + keys[len(keys)-1].H`
(both the trim step and `drawAll` compute it this way; main.go never calls it
on an empty slice, where Go would panic, so the empty case is mapped to 0). -/
def sepYOf (keys : List Key) : Nat :=
  match keys.getLast? with
  | some k => k.y + k.h
  | none => 0

/-- labelFromEvent of main.go. The Go `switch` has mutually exclusive constant
cases plus a `default` holding the Ctrl-letter range test, so it is embedded
as this chain with the named keys first. -/
def labelFromEvent (ev : EventKey) : String :=
  if ev.key = keyEscape then "Esc"
  else if ev.key = keyEnter then "Enter"
  else if ev.key = keyTab then "Tab"
  else if ev.key = keyBackspace ∨ ev.key = keyBackspace2 then "Backspace"
  else if ev.key ∈ navKeyCodes then keyNames ev.key
  else if ev.key = keyRune then
    (if ev.rn = ' ' then "Space" else String.singleton (Char.toUpper ev.rn))
  else if keyCtrlA ≤ ev.key ∧ ev.key ≤ keyCtrlZ then
    String.singleton (Char.ofNat ('A'.toNat + (ev.key - keyCtrlA)))
  else "Key[" ++ toString ev.key ++ "]"

/-- modString of main.go: Ctrl, Alt, Shift flags joined with a bar, or None. -/
def modString (m : Nat) : String :=
  let parts : List String :=
    (if m &&& modCtrl ≠ 0 then ["Ctrl"] else [])
      ++ (if m &&& modAlt ≠ 0 then ["Alt"] else [])
      ++ (if m &&& modShift ≠ 0 then ["Shift"] else [])
  if parts.isEmpty then "None" else String.intercalate "|" parts

/-- Go `fmt` padding for `%-Ns`: left-justify, pad on the right with spaces to
a minimum width (never truncates). -/
def padRightGo (s : String) (w : Nat) : String :=
  s ++ String.mk (List.replicate (w - s.length) ' ')

/-- Go `fmt` padding for `%Nd`: right-justify, pad on the left with spaces to
a minimum width (never truncates). -/
def padLeftGo (s : String) (w : Nat) : String :=
  String.mk (List.replicate (w - s.length) ' ') ++ s

/-- The log line `fmt.Sprintf("%s | %-7s | Code=%3d | Mods=%s", …)`. -/
def formatEntry (ts label : String) (code : Nat) (mods : String) : String :=
  ts ++ " | " ++ padRightGo label 7 ++ " | Code=" ++ padLeftGo (toString code) 3
    ++ " | Mods=" ++ mods

/-- The session state owned by the main loop: logs, pressed set (insertion
list standing for `map[string]bool`), and the three exit counters. -/
structure Session where
  logs : List String
  pressed : List String
  escCount : Nat
  enterCount : Nat
  spaceCount : Nat
deriving DecidableEq

/-- The state before the first event: `logs := []string{}`,
`pressed := map[string]bool{}`, counters 0. -/
def initialSession : Session :=
  { logs := [], pressed := [], escCount := 0, enterCount := 0, spaceCount := 0 }

/-- Set-insert into the pressed list (`pressed[label] = true`). -/
def insertLabel (pressed : List String) (l : String) : List String :=
  if l ∈ pressed then pressed else pressed ++ [l]

/-- The exit-logic switch of the loop body: increment the counter matching the
event (Escape / Enter / Space rune), leave the rest alone. -/
def exitUpdate (st : Session) (k : EventKey) : Session :=
  if k.key = keyEscape then { st with escCount := st.escCount + 1 }
  else if k.key = keyEnter then { st with enterCount := st.enterCount + 1 }
  else if k.key = keyRune ∧ k.rn = ' ' then
    { st with spaceCount := st.spaceCount + 1 }
  else st

/-- The `return`-test of the exit-logic switch, applied to the state after the
increment: each branch checks only its own counter against 5. -/
def exitNow (st : Session) (k : EventKey) : Bool :=
  if k.key = keyEscape then decide (5 ≤ st.escCount)
  else if k.key = keyEnter then decide (5 ≤ st.enterCount)
  else if k.key = keyRune ∧ k.rn = ' ' then decide (5 ≤ st.spaceCount)
  else false

/-- The pressed-marking block of the loop body (lines 63–81 of main.go):
main label, then Ctrl (modifier bit OR Ctrl-letter code range), Alt, Shift,
and the CapsLock heuristic. -/
def markPressed (st : Session) (ev : EventKey) : Session :=
  let p0 := insertLabel st.pressed (labelFromEvent ev)
  let p1 := if ev.mods &&& modCtrl ≠ 0 ∨ (keyCtrlA ≤ ev.key ∧ ev.key ≤ keyCtrlZ)
    then insertLabel p0 "Ctrl" else p0
  let p2 := if ev.mods &&& modAlt ≠ 0 then insertLabel p1 "Alt" else p1
  let p3 := if ev.mods &&& modShift ≠ 0 then insertLabel p2 "Shift" else p2
  let p4 := if ev.key = keyRune ∧ (ev.rn.isAlpha = true ∧ ev.rn.isUpper = true)
      ∧ ev.mods &&& modShift = 0
    then insertLabel p3 "CapsLock" else p3
  { st with pressed := p4 }

/-- The safe-trim block of the loop body: `maxLines := scrH - sepY - 1`;
clear when no room, else keep the bottom-most `maxLines` entries. -/
def trimLogs (keys : List Key) (scrH : Nat) (logs : List String) : List String :=
  let maxLines : Int := (scrH : Int) - (sepYOf keys : Int) - 1
  if maxLines ≤ 0 then []
  else if maxLines < (logs.length : Int) then
    logs.drop (logs.length - maxLines.toNat)
  else logs

/-- Surface calls the loop body makes, recorded abstractly. -/
inductive SurfaceOp where
  | drawAll (keys : List Key) (logs : List String) (pressed : List String) :
      SurfaceOp
  | showFrame : SurfaceOp
  | sync : SurfaceOp
deriving DecidableEq

/-- Result of one iteration of the main loop. -/
structure StepOut where
  st : Session
  ops : List SurfaceOp
  terminated : Bool
deriving DecidableEq

/-- The `*tcell.EventKey` arm of the loop body: exit logic (returning
immediately when a counter reaches 5), pressed marking, log append, safe trim,
redraw and show. -/
def stepKey (keys : List Key) (scrH : Nat) (ts : String) (st : Session)
    (k : EventKey) : StepOut :=
  let st1 := exitUpdate st k
  if exitNow st1 k then { st := st1, ops := [], terminated := true }
  else
    let st2 := markPressed st1 k
    let st3 := { st2 with
      logs := st2.logs
        ++ [formatEntry ts (labelFromEvent k) k.key (modString k.mods)] }
    let st4 := { st3 with logs := trimLogs keys scrH st3.logs }
    { st := st4,
      ops := [SurfaceOp.drawAll keys st4.logs st4.pressed, SurfaceOp.showFrame],
      terminated := false }

/-- One iteration of the main loop on either handled event kind; a resize
only calls `s.Sync()`. -/
def step (keys : List Key) (scrH : Nat) (ts : String) (st : Session) :
    Event → StepOut
  | Event.key k => stepKey keys scrH ts st k
  | Event.resize => { st := st, ops := [SurfaceOp.sync], terminated := false }

/-- Run the main loop over a list of events, each paired with the timestamp
string and screen height the environment supplies for that iteration; stops
(`true`) when an iteration returns. -/
def runList (keys : List Key) (st : Session) :
    List (Event × String × Nat) → Session × Bool
  | [] => (st, false)
  | (ev, ts, h) :: rest =>
    let o := step keys h ts st ev
    if o.terminated then (o.st, true) else runList keys o.st rest

/-! ### Helper lemmas about the embedded operations -/

@[simp] lemma exitUpdate_logs (st : Session) (k : EventKey) :
    (exitUpdate st k).logs = st.logs := by
  unfold exitUpdate; split_ifs <;> rfl

@[simp] lemma exitUpdate_pressed (st : Session) (k : EventKey) :
    (exitUpdate st k).pressed = st.pressed := by
  unfold exitUpdate; split_ifs <;> rfl

@[simp] lemma markPressed_logs (st : Session) (k : EventKey) :
    (markPressed st k).logs = st.logs := rfl

@[simp] lemma markPressed_escCount (st : Session) (k : EventKey) :
    (markPressed st k).escCount = st.escCount := rfl

@[simp] lemma markPressed_enterCount (st : Session) (k : EventKey) :
    (markPressed st k).enterCount = st.enterCount := rfl

@[simp] lemma markPressed_spaceCount (st : Session) (k : EventKey) :
    (markPressed st k).spaceCount = st.spaceCount := rfl

lemma exitUpdate_escCount (st : Session) (k : EventKey) :
    (exitUpdate st k).escCount
      = if k.key = keyEscape then st.escCount + 1 else st.escCount := by
  unfold exitUpdate; split_ifs <;> simp_all

lemma exitUpdate_enterCount (st : Session) (k : EventKey) :
    (exitUpdate st k).enterCount
      = if k.key = keyEnter then st.enterCount + 1 else st.enterCount := by
  unfold exitUpdate
  split_ifs <;> simp_all [keyEscape, keyEnter]

lemma exitUpdate_spaceCount (st : Session) (k : EventKey) :
    (exitUpdate st k).spaceCount
      = if k.key = keyRune ∧ k.rn = ' ' then st.spaceCount + 1
        else st.spaceCount := by
  unfold exitUpdate
  split_ifs <;> simp_all [keyEscape, keyEnter, keyRune]

lemma mem_insertLabel {s : List String} {l a : String} :
    a ∈ insertLabel s l ↔ (a ∈ s ∨ a = l) := by
  unfold insertLabel
  split
  · rename_i h
    constructor
    · exact Or.inl
    · rintro (ha | rfl)
      · exact ha
      · exact h
  · simp [List.mem_append]

lemma mem_ite_insert (c : Prop) [Decidable c] (s : List String) (l a : String) :
    a ∈ (if c then insertLabel s l else s) ↔ (a ∈ s ∨ (c ∧ a = l)) := by
  split
  · rename_i h
    rw [mem_insertLabel]
    tauto
  · rename_i h
    tauto

lemma mem_markPressed (st : Session) (k : EventKey) (a : String) :
    a ∈ (markPressed st k).pressed ↔
      (a ∈ st.pressed ∨ a = labelFromEvent k
        ∨ ((k.mods &&& modCtrl ≠ 0 ∨ (keyCtrlA ≤ k.key ∧ k.key ≤ keyCtrlZ))
            ∧ a = "Ctrl")
        ∨ (k.mods &&& modAlt ≠ 0 ∧ a = "Alt")
        ∨ (k.mods &&& modShift ≠ 0 ∧ a = "Shift")
        ∨ ((k.key = keyRune ∧ (k.rn.isAlpha = true ∧ k.rn.isUpper = true)
            ∧ k.mods &&& modShift = 0) ∧ a = "CapsLock")) := by
  show a ∈ (if k.key = keyRune ∧ (k.rn.isAlpha = true ∧ k.rn.isUpper = true)
        ∧ k.mods &&& modShift = 0
      then insertLabel (if k.mods &&& modShift ≠ 0
        then insertLabel (if k.mods &&& modAlt ≠ 0
          then insertLabel (if k.mods &&& modCtrl ≠ 0
              ∨ (keyCtrlA ≤ k.key ∧ k.key ≤ keyCtrlZ)
            then insertLabel (insertLabel st.pressed (labelFromEvent k)) "Ctrl"
            else insertLabel st.pressed (labelFromEvent k)) "Alt"
          else (if k.mods &&& modCtrl ≠ 0
              ∨ (keyCtrlA ≤ k.key ∧ k.key ≤ keyCtrlZ)
            then insertLabel (insertLabel st.pressed (labelFromEvent k)) "Ctrl"
            else insertLabel st.pressed (labelFromEvent k))) "Shift"
        else (if k.mods &&& modAlt ≠ 0
          then insertLabel (if k.mods &&& modCtrl ≠ 0
              ∨ (keyCtrlA ≤ k.key ∧ k.key ≤ keyCtrlZ)
            then insertLabel (insertLabel st.pressed (labelFromEvent k)) "Ctrl"
            else insertLabel st.pressed (labelFromEvent k)) "Alt"
          else (if k.mods &&& modCtrl ≠ 0
              ∨ (keyCtrlA ≤ k.key ∧ k.key ≤ keyCtrlZ)
            then insertLabel (insertLabel st.pressed (labelFromEvent k)) "Ctrl"
            else insertLabel st.pressed (labelFromEvent k)))) "CapsLock"
      else (if k.mods &&& modShift ≠ 0
        then insertLabel (if k.mods &&& modAlt ≠ 0
          then insertLabel (if k.mods &&& modCtrl ≠ 0
              ∨ (keyCtrlA ≤ k.key ∧ k.key ≤ keyCtrlZ)
            then insertLabel (insertLabel st.pressed (labelFromEvent k)) "Ctrl"
            else insertLabel st.pressed (labelFromEvent k)) "Alt"
          else (if k.mods &&& modCtrl ≠ 0
              ∨ (keyCtrlA ≤ k.key ∧ k.key ≤ keyCtrlZ)
            then insertLabel (insertLabel st.pressed (labelFromEvent k)) "Ctrl"
            else insertLabel st.pressed (labelFromEvent k))) "Shift"
        else (if k.mods &&& modAlt ≠ 0
          then insertLabel (if k.mods &&& modCtrl ≠ 0
              ∨ (keyCtrlA ≤ k.key ∧ k.key ≤ keyCtrlZ)
            then insertLabel (insertLabel st.pressed (labelFromEvent k)) "Ctrl"
            else insertLabel st.pressed (labelFromEvent k)) "Alt"
          else (if k.mods &&& modCtrl ≠ 0
              ∨ (keyCtrlA ≤ k.key ∧ k.key ≤ keyCtrlZ)
            then insertLabel (insertLabel st.pressed (labelFromEvent k)) "Ctrl"
            else insertLabel st.pressed (labelFromEvent k))))) ↔ _
  rw [mem_ite_insert, mem_ite_insert, mem_ite_insert, mem_ite_insert,
    mem_insertLabel]
  tauto

@[simp] lemma singleton_length (c : Char) : (String.singleton c).length = 1 := rfl

lemma keyNames_ne_Ctrl (n : Nat) : keyNames n ≠ "Ctrl" := by
  unfold keyNames
  cases hf : keyNamesTable.find? (fun p => p.1 == n) with
  | none => decide
  | some p =>
    have hmem := List.mem_of_find?_eq_some hf
    dsimp only
    fin_cases hmem <;> decide

lemma labelFromEvent_ne_Ctrl (ev : EventKey) : labelFromEvent ev ≠ "Ctrl" := by
  unfold labelFromEvent
  split_ifs with h1 h2 h3 h4 h5 h6 h7 h8
  · decide
  · decide
  · decide
  · decide
  · exact keyNames_ne_Ctrl ev.key
  · decide
  · intro h
    have hl := congrArg String.length h
    rw [singleton_length] at hl
    exact absurd hl (by decide)
  · intro h
    have hl := congrArg String.length h
    rw [singleton_length] at hl
    exact absurd hl (by decide)
  · intro h
    have hl := congrArg String.length h
    rw [String.length_append, String.length_append] at hl
    have h4 : String.length "Key[" = 4 := rfl
    have h1 : String.length "]" = 1 := rfl
    have hc : String.length "Ctrl" = 4 := rfl
    rw [h4, h1, hc] at hl
    omega

lemma stepKey_terminated_eq (keys : List Key) (h : Nat) (ts : String)
    (st : Session) (k : EventKey) :
    (stepKey keys h ts st k).terminated = exitNow (exitUpdate st k) k := by
  cases hc : exitNow (exitUpdate st k) k <;> simp [stepKey, hc]

lemma stepKey_term_st (keys : List Key) (h : Nat) (ts : String)
    (st : Session) (k : EventKey)
    (hterm : (stepKey keys h ts st k).terminated = true) :
    (stepKey keys h ts st k).st = exitUpdate st k := by
  rw [stepKey_terminated_eq] at hterm
  simp [stepKey, hterm]

lemma stepKey_not_term (keys : List Key) (h : Nat) (ts : String)
    (st : Session) (k : EventKey)
    (hnt : (stepKey keys h ts st k).terminated = false) :
    (stepKey keys h ts st k).st.logs
        = trimLogs keys h (st.logs
            ++ [formatEntry ts (labelFromEvent k) k.key (modString k.mods)])
      ∧ (stepKey keys h ts st k).st.pressed
        = (markPressed (exitUpdate st k) k).pressed := by
  rw [stepKey_terminated_eq] at hnt
  constructor <;> simp [stepKey, hnt]

lemma stepKey_escCount (keys : List Key) (h : Nat) (ts : String)
    (st : Session) (k : EventKey) :
    (stepKey keys h ts st k).st.escCount = (exitUpdate st k).escCount := by
  cases hc : exitNow (exitUpdate st k) k <;> simp [stepKey, hc]

lemma stepKey_enterCount (keys : List Key) (h : Nat) (ts : String)
    (st : Session) (k : EventKey) :
    (stepKey keys h ts st k).st.enterCount = (exitUpdate st k).enterCount := by
  cases hc : exitNow (exitUpdate st k) k <;> simp [stepKey, hc]

lemma stepKey_spaceCount (keys : List Key) (h : Nat) (ts : String)
    (st : Session) (k : EventKey) :
    (stepKey keys h ts st k).st.spaceCount = (exitUpdate st k).spaceCount := by
  cases hc : exitNow (exitUpdate st k) k <;> simp [stepKey, hc]

lemma exitNow_false_iff (st : Session) (k : EventKey) :
    exitNow st k = false ↔
      ((k.key = keyEscape → st.escCount ≤ 4)
        ∧ (k.key = keyEnter → st.enterCount ≤ 4)
        ∧ ((k.key = keyRune ∧ k.rn = ' ') → st.spaceCount ≤ 4)) := by
  unfold exitNow
  split_ifs <;> simp_all [keyEscape, keyEnter, keyRune] <;> omega

/-! ### Sliding-window lemmas for the log buffer -/

/-- The last `n` entries of a list (the sliding window the trim keeps). -/
def lastN (n : Nat) (l : List α) : List α := l.drop (l.length - n)

lemma lastN_length (n : Nat) (l : List α) :
    (lastN n l).length = min n l.length := by
  simp [lastN]
  omega

lemma lastN_of_le {n : Nat} {l : List α} (h : l.length ≤ n) : lastN n l = l := by
  have : l.length - n = 0 := by omega
  simp [lastN, this]

lemma lastN_suffix (n : Nat) (l : List α) : lastN n l <:+ l :=
  List.drop_suffix _ _

lemma lastN_eq_of_suffix {s t : List α} (n : Nat) (hsuf : s <:+ t)
    (hn : n ≤ s.length) : lastN n s = lastN n t := by
  obtain ⟨u, rfl⟩ := hsuf
  unfold lastN
  rw [List.length_append,
    show u.length + s.length - n = u.length + (s.length - n) by omega,
    List.drop_append]

lemma lastN_append_lastN (n : Nat) (l m : List α) :
    lastN n (lastN n l ++ m) = lastN n (l ++ m) := by
  rcases le_or_lt l.length n with hle | hlt
  · rw [lastN_of_le hle]
  · apply lastN_eq_of_suffix
    · obtain ⟨u, hu⟩ := lastN_suffix n l
      exact ⟨u, by rw [← List.append_assoc, hu]⟩
    · rw [List.length_append, lastN_length]
      omega

lemma trimLogs_eq_lastN (keys : List Key) (scrH : Nat) (logs : List String)
    (hpos : 0 < (scrH : Int) - (sepYOf keys : Int) - 1) :
    trimLogs keys scrH logs
      = lastN ((scrH : Int) - (sepYOf keys : Int) - 1).toNat logs := by
  unfold trimLogs
  rw [if_neg (by omega)]
  split
  · rfl
  · rename_i hlen
    rw [lastN_of_le (by omega)]

/-! ### Run-level lemmas -/

@[simp] lemma step_resize (keys : List Key) (h : Nat) (ts : String)
    (st : Session) :
    step keys h ts st Event.resize
      = { st := st, ops := [SurfaceOp.sync], terminated := false } := rfl

@[simp] lemma step_key_eq (keys : List Key) (h : Nat) (ts : String)
    (st : Session) (k : EventKey) :
    step keys h ts st (Event.key k) = stepKey keys h ts st k := rfl

@[simp] lemma runList_nil (keys : List Key) (st : Session) :
    runList keys st [] = (st, false) := rfl

lemma runList_cons (keys : List Key) (st : Session) (ev : Event) (ts : String)
    (h : Nat) (rest : List (Event × String × Nat)) :
    runList keys st ((ev, ts, h) :: rest)
      = if (step keys h ts st ev).terminated = true
        then ((step keys h ts st ev).st, true)
        else runList keys (step keys h ts st ev).st rest := rfl

lemma runList_append (keys : List Key) (st : Session)
    (l₁ l₂ : List (Event × String × Nat)) :
    runList keys st (l₁ ++ l₂)
      = if (runList keys st l₁).2 then runList keys st l₁
        else runList keys (runList keys st l₁).1 l₂ := by
  induction l₁ generalizing st with
  | nil => simp [runList]
  | cons hd tl ih =>
    obtain ⟨ev, ts, h⟩ := hd
    rw [List.cons_append, runList_cons, runList_cons]
    cases hterm : (step keys h ts st ev).terminated
    · simp only [Bool.false_eq_true, if_false]
      exact ih (step keys h ts st ev).st
    · simp

lemma step_counters (keys : List Key) (h : Nat) (ts : String) (st : Session)
    (ev : Event)
    (hesc : st.escCount ≤ 4) (hent : st.enterCount ≤ 4)
    (hspc : st.spaceCount ≤ 4) :
    (st.escCount ≤ (step keys h ts st ev).st.escCount
      ∧ st.enterCount ≤ (step keys h ts st ev).st.enterCount
      ∧ st.spaceCount ≤ (step keys h ts st ev).st.spaceCount)
    ∧ ((step keys h ts st ev).st.escCount ≤ 5
      ∧ (step keys h ts st ev).st.enterCount ≤ 5
      ∧ (step keys h ts st ev).st.spaceCount ≤ 5)
    ∧ ((step keys h ts st ev).terminated = true ↔
        ((step keys h ts st ev).st.escCount = 5
          ∨ (step keys h ts st ev).st.enterCount = 5
          ∨ (step keys h ts st ev).st.spaceCount = 5))
    ∧ ((step keys h ts st ev).terminated = false →
        ((step keys h ts st ev).st.escCount ≤ 4
          ∧ (step keys h ts st ev).st.enterCount ≤ 4
          ∧ (step keys h ts st ev).st.spaceCount ≤ 4)) := by
  cases ev with
  | resize =>
    simp only [step_resize]
    refine ⟨⟨le_refl _, le_refl _, le_refl _⟩, ⟨by omega, by omega, by omega⟩,
      ?_, fun _ => ⟨hesc, hent, hspc⟩⟩
    exact iff_of_false (by simp) (by omega)
  | key k =>
    simp only [step_key_eq, stepKey_escCount, stepKey_enterCount,
      stepKey_spaceCount, stepKey_terminated_eq, exitUpdate_escCount,
      exitUpdate_enterCount, exitUpdate_spaceCount]
    unfold exitNow
    simp only [exitUpdate_escCount, exitUpdate_enterCount,
      exitUpdate_spaceCount]
    split_ifs <;>
      simp_all [keyEscape, keyEnter, keyRune, decide_eq_true_eq] <;> omega

lemma runList_counters (keys : List Key) :
    ∀ (l : List (Event × String × Nat)) (st : Session),
      st.escCount ≤ 4 → st.enterCount ≤ 4 → st.spaceCount ≤ 4 →
      (st.escCount ≤ (runList keys st l).1.escCount
        ∧ st.enterCount ≤ (runList keys st l).1.enterCount
        ∧ st.spaceCount ≤ (runList keys st l).1.spaceCount)
      ∧ ((runList keys st l).1.escCount ≤ 5
        ∧ (runList keys st l).1.enterCount ≤ 5
        ∧ (runList keys st l).1.spaceCount ≤ 5)
      ∧ ((runList keys st l).2 = true ↔
          ((runList keys st l).1.escCount = 5
            ∨ (runList keys st l).1.enterCount = 5
            ∨ (runList keys st l).1.spaceCount = 5))
      ∧ ((runList keys st l).2 = false →
          ((runList keys st l).1.escCount ≤ 4
            ∧ (runList keys st l).1.enterCount ≤ 4
            ∧ (runList keys st l).1.spaceCount ≤ 4)) := by
  intro l
  induction l with
  | nil =>
    intro st hesc hent hspc
    simp only [runList_nil]
    refine ⟨⟨le_refl _, le_refl _, le_refl _⟩, ⟨by omega, by omega, by omega⟩,
      ?_, fun _ => ⟨hesc, hent, hspc⟩⟩
    exact iff_of_false (by simp) (by omega)
  | cons hd tl ih =>
    intro st hesc hent hspc
    obtain ⟨ev, ts, h⟩ := hd
    have hstep := step_counters keys h ts st ev hesc hent hspc
    rw [runList_cons]
    cases hterm : (step keys h ts st ev).terminated
    · simp only [Bool.false_eq_true, if_false]
      have hlt := hstep.2.2.2 hterm
      have := ih (step keys h ts st ev).st hlt.1 hlt.2.1 hlt.2.2
      exact ⟨⟨le_trans hstep.1.1 this.1.1, le_trans hstep.1.2.1 this.1.2.1,
          le_trans hstep.1.2.2 this.1.2.2⟩,
        this.2.1, this.2.2.1, this.2.2.2⟩
    · simp only [eq_self_iff_true, if_true]
      refine ⟨hstep.1, hstep.2.1, ?_, by simp⟩
      simpa [hterm] using hstep.2.2.1

/-! ### Facts about the trim and the entry format -/

lemma trimLogs_suffix (keys : List Key) (h : Nat) (L : List String) :
    trimLogs keys h L <:+ L := by
  simp only [trimLogs]
  split
  · exact List.nil_suffix
  · split
    · exact List.drop_suffix _ _
    · exact List.suffix_refl _

lemma trimLogs_spec (keys : List Key) (h : Nat) (L : List String) :
    ((trimLogs keys h L).length : Int)
        ≤ max 0 ((h : Int) - (sepYOf keys : Int) - 1)
    ∧ ((h : Int) - (sepYOf keys : Int) - 1 ≤ 0 → trimLogs keys h L = [])
    ∧ (0 < (h : Int) - (sepYOf keys : Int) - 1 →
        (h : Int) - (sepYOf keys : Int) - 1 < (L.length : Int) →
        ((trimLogs keys h L).length : Int)
          = (h : Int) - (sepYOf keys : Int) - 1) := by
  simp only [trimLogs]
  split
  · rename_i hc
    exact ⟨by simp, fun _ => rfl,
      fun hpos _ => absurd hpos (by omega)⟩
  · rename_i hc
    split
    · rename_i hlen
      refine ⟨?_, fun hh => absurd hh hc, fun hpos hlt => ?_⟩
      · simp only [List.length_drop]
        omega
      · simp only [List.length_drop]
        omega
    · rename_i hlen
      refine ⟨by omega, fun hh => absurd hh hc, fun hpos hlt => ?_⟩
      omega

@[simp] lemma length_mk (l : List Char) : (String.mk l).length = l.length := rfl

lemma padRightGo_length (s : String) (w : Nat) :
    (padRightGo s w).length = max w s.length := by
  simp [padRightGo, String.length_append]
  omega

/-! ### Concrete states and events used by the witnesses -/

def demoTwoLogs : Session :=
  { logs := ["e1", "e2"], pressed := [], escCount := 0, enterCount := 0,
    spaceCount := 0 }

def demoPressedEsc : Session :=
  { logs := [], pressed := ["Esc"], escCount := 0, enterCount := 0,
    spaceCount := 0 }

def demoFourEsc : Session :=
  { logs := ["x"], pressed := ["Esc"], escCount := 4, enterCount := 0,
    spaceCount := 0 }

def demoTenLogs : Session :=
  { logs := ["l1", "l2", "l3", "l4", "l5", "l6", "l7", "l8", "l9", "l10"],
    pressed := [], escCount := 0, enterCount := 0, spaceCount := 0 }

def escEv : EventKey := { key := keyEscape, mods := 0, rn := ' ' }

/-- True when the recorded surface-op list contains a full-frame redraw. -/
def hasDraw (ops : List SurfaceOp) : Bool :=
  ops.any fun op => match op with
    | SurfaceOp.drawAll _ _ _ => true
    | _ => false

/-! ### Claim C1 -/

/-- C1: after a processed (non-terminating) key event the log length is at
most `max 0 capacity` with capacity = height - separator row - 1; a zero or
negative capacity empties the buffer; and when the append overflows a positive
capacity, exactly the most recent `capacity` entries are retained in their
original order (the result is a suffix of the appended list of that length). -/
theorem C1_log_bound (keys : List Key) (h : Nat) (ts : String) (st : Session)
    (k : EventKey)
    (hnt : (step keys h ts st (Event.key k)).terminated = false) :
    (((step keys h ts st (Event.key k)).st.logs.length : Int)
        ≤ max 0 ((h : Int) - (sepYOf keys : Int) - 1))
    ∧ ((h : Int) - (sepYOf keys : Int) - 1 ≤ 0 →
        (step keys h ts st (Event.key k)).st.logs = [])
    ∧ (0 < (h : Int) - (sepYOf keys : Int) - 1 →
        (h : Int) - (sepYOf keys : Int) - 1 < (st.logs.length : Int) + 1 →
        (((step keys h ts st (Event.key k)).st.logs.length : Int)
            = (h : Int) - (sepYOf keys : Int) - 1
          ∧ (step keys h ts st (Event.key k)).st.logs <:+
              st.logs ++ [formatEntry ts (labelFromEvent k) k.key
                (modString k.mods)])) := by
  simp only [step_key_eq] at hnt ⊢
  rw [(stepKey_not_term keys h ts st k hnt).1]
  have hspec := trimLogs_spec keys h
    (st.logs ++ [formatEntry ts (labelFromEvent k) k.key (modString k.mods)])
  refine ⟨hspec.1, hspec.2.1, fun hpos hlt => ⟨?_, trimLogs_suffix _ _ _⟩⟩
  refine hspec.2.2 hpos ?_
  simp only [List.length_append, List.length_singleton]
  push_cast
  omega

/-- Witness for C1: a rune event at height 38 (capacity 2) on a two-entry
buffer. -/
theorem C1_log_bound_witness :
    (((step initKeys 38 "07:00:00" demoTwoLogs
        (Event.key { key := keyRune, mods := 0, rn := 'x' })).st.logs.length
          : Int)
      ≤ max 0 ((38 : Int) - (sepYOf initKeys : Int) - 1)) :=
  (C1_log_bound initKeys 38 "07:00:00" demoTwoLogs
    { key := keyRune, mods := 0, rn := 'x' } (by decide)).1

/-! ### Claim C4 -/

/-- C4: the pressed set only grows: processing any event (key or resize)
keeps every label that was already pressed. -/
theorem C4_pressed_monotone (keys : List Key) (h : Nat) (ts : String)
    (st : Session) (ev : Event) (l : String)
    (hl : l ∈ st.pressed) : l ∈ (step keys h ts st ev).st.pressed := by
  cases ev with
  | resize => simpa using hl
  | key k =>
    simp only [step_key_eq]
    cases hterm : (stepKey keys h ts st k).terminated
    · rw [(stepKey_not_term keys h ts st k hterm).2, mem_markPressed]
      left
      simpa using hl
    · rw [stepKey_term_st keys h ts st k hterm]
      simpa using hl

/-- Witness for C4 at a concrete state and event. -/
theorem C4_pressed_monotone_witness :
    "Esc" ∈ (step initKeys 40 "10:00:00" demoPressedEsc Event.resize).st.pressed :=
  C4_pressed_monotone initKeys 40 "10:00:00" demoPressedEsc Event.resize "Esc"
    (by decide)

/-! ### Claim C8 (amended) -/

/-- C8 counterexample: a resize performs no drawAll call, and a buffer longer
than the new (zero) capacity stays untrimmed, so the frame is not recomposed
with a recomputed log capacity. -/
theorem C8_resize_cex :
    hasDraw (step initKeys 36 "12:00:00" demoTenLogs Event.resize).ops = false
    ∧ (step initKeys 36 "12:00:00" demoTenLogs Event.resize).st.logs.length = 10
    ∧ (36 : Int) - (sepYOf initKeys : Int) - 1 = 0 := by decide

/-- C8 (amended): a resize event mutates no session data and triggers only a
surface synchronization (`Sync`), never a drawAll or a trim; the log capacity
is not recomputed until the next key event. -/
theorem C8_resize_pure (keys : List Key) (h : Nat) (ts : String)
    (st : Session) :
    (step keys h ts st Event.resize).st = st
    ∧ (step keys h ts st Event.resize).ops = [SurfaceOp.sync]
    ∧ (step keys h ts st Event.resize).terminated = false :=
  ⟨rfl, rfl, rfl⟩

/-! ### Claim C9 -/

/-- C9: on the key event that terminates the session the loop returns before
any pressed-set or log mutation: both are exactly as after the previous
event. -/
theorem C9_terminating_atomic (keys : List Key) (h : Nat) (ts : String)
    (st : Session) (k : EventKey)
    (hterm : (step keys h ts st (Event.key k)).terminated = true) :
    (step keys h ts st (Event.key k)).st.pressed = st.pressed
    ∧ (step keys h ts st (Event.key k)).st.logs = st.logs := by
  simp only [step_key_eq] at hterm ⊢
  rw [stepKey_term_st keys h ts st k hterm]
  simp

/-- Witness for C9: the fifth Escape at a concrete state. -/
theorem C9_terminating_atomic_witness :
    (step initKeys 40 "11:00:00" demoFourEsc (Event.key escEv)).st.pressed
        = demoFourEsc.pressed
    ∧ (step initKeys 40 "11:00:00" demoFourEsc (Event.key escEv)).st.logs
        = demoFourEsc.logs :=
  C9_terminating_atomic initKeys 40 "11:00:00" demoFourEsc escEv (by decide)

/-! ### Claim C5 (amended) -/

/-- C5 counterexample: code 13 lies in the Ctrl-letter range (Ctrl+M) but is
labeled "Enter" by the named-key case, not "M". -/
theorem C5_ctrl_label_cex :
    keyCtrlA ≤ 13 ∧ (13 : Nat) ≤ keyCtrlZ
    ∧ labelFromEvent { key := 13, mods := 0, rn := ' ' } = "Enter"
    ∧ labelFromEvent { key := 13, mods := 0, rn := ' ' } ≠ "M" := by decide

/-- C5 (amended): Ctrl is marked pressed exactly when it already was, the
modifier bitmask includes Ctrl, or the raw code lies in the Ctrl-letter range;
and a control code 1..26 resolves to the corresponding uppercase letter except
at the codes that coincide with named keys (8 Backspace, 9 Tab, 13 Enter). -/
theorem C5_ctrl_detection (st : Session) (k : EventKey) :
    ("Ctrl" ∈ (markPressed st k).pressed ↔
      ("Ctrl" ∈ st.pressed
        ∨ (k.mods &&& modCtrl ≠ 0 ∨ (keyCtrlA ≤ k.key ∧ k.key ≤ keyCtrlZ))))
    ∧ (keyCtrlA ≤ k.key → k.key ≤ keyCtrlZ →
        k.key ≠ keyBackspace → k.key ≠ keyTab → k.key ≠ keyEnter →
        labelFromEvent k = String.singleton (Char.ofNat (64 + k.key))) := by
  constructor
  · rw [mem_markPressed]
    have hne : ¬("Ctrl" = labelFromEvent k) :=
      fun hh => labelFromEvent_ne_Ctrl k hh.symm
    constructor
    · rintro (hp | hl | ⟨hc, _⟩ | ⟨_, ha⟩ | ⟨_, hs⟩ | ⟨_, hcap⟩)
      · exact Or.inl hp
      · exact absurd hl hne
      · exact Or.inr hc
      · exact absurd ha (by decide)
      · exact absurd hs (by decide)
      · exact absurd hcap (by decide)
    · rintro (hp | hc)
      · exact Or.inl hp
      · exact Or.inr (Or.inr (Or.inl ⟨hc, rfl⟩))
  · intro h1 h2 h8 h9 h13
    have g1 : 1 ≤ k.key := h1
    have g2 : k.key ≤ 26 := h2
    have g8 : k.key ≠ 8 := h8
    have g9 : k.key ≠ 9 := h9
    have g13 : k.key ≠ 13 := h13
    unfold labelFromEvent
    rw [if_neg (show ¬(k.key = keyEscape) from by
        show ¬(k.key = 27); omega),
      if_neg (show ¬(k.key = keyEnter) from by
        show ¬(k.key = 13); omega),
      if_neg (show ¬(k.key = keyTab) from by
        show ¬(k.key = 9); omega),
      if_neg (show ¬(k.key = keyBackspace ∨ k.key = keyBackspace2) from by
        show ¬(k.key = 8 ∨ k.key = 127); omega),
      if_neg (show ¬(k.key ∈ navKeyCodes) from by
        simp only [navKeyCodes, List.mem_cons, List.not_mem_nil, or_false]
        omega),
      if_neg (show ¬(k.key = keyRune) from by
        show ¬(k.key = 256); omega),
      if_pos ⟨h1, h2⟩]
    congr 2
    show 65 + (k.key - 1) = 64 + k.key
    omega

/-- Witness for C5: Ctrl+D (code 4) resolves to the letter D. -/
theorem C5_ctrl_detection_witness :
    labelFromEvent { key := 4, mods := 0, rn := ' ' }
      = String.singleton (Char.ofNat (64 + 4)) :=
  (C5_ctrl_detection initialSession { key := 4, mods := 0, rn := ' ' }).2
    (by decide) (by decide) (by decide) (by decide) (by decide)

/-! ### Claim C6 -/

/-- The key codes handled by a named case of labelFromEvent: Escape, Enter,
Tab, the two Backspace codes, and the nav/function keys. -/
def namedKeyCodes : List Nat := [27, 13, 9, 8, 127] ++ navKeyCodes

/-- C6: classification is total: a code matching no named key, no rune, and no
Ctrl-letter code yields the synthetic label embedding that exact code, which
is never empty, and such an event changes none of the three exit counters. -/
theorem C6_unknown_total (keys : List Key) (h : Nat) (ts : String)
    (st : Session) (k : EventKey)
    (hname : k.key ∉ namedKeyCodes) (hrune : k.key ≠ keyRune)
    (hctrl : ¬(keyCtrlA ≤ k.key ∧ k.key ≤ keyCtrlZ)) :
    labelFromEvent k = "Key[" ++ toString k.key ++ "]"
    ∧ labelFromEvent k ≠ ""
    ∧ (step keys h ts st (Event.key k)).st.escCount = st.escCount
    ∧ (step keys h ts st (Event.key k)).st.enterCount = st.enterCount
    ∧ (step keys h ts st (Event.key k)).st.spaceCount = st.spaceCount := by
  simp only [namedKeyCodes, navKeyCodes, List.mem_append, List.mem_cons,
    List.not_mem_nil, or_false, not_or] at hname
  obtain ⟨⟨n27, n13, n9, n8, n127⟩, hnav⟩ := hname
  have hlabel : labelFromEvent k = "Key[" ++ toString k.key ++ "]" := by
    unfold labelFromEvent
    rw [if_neg (show ¬(k.key = keyEscape) from n27),
      if_neg (show ¬(k.key = keyEnter) from n13),
      if_neg (show ¬(k.key = keyTab) from n9),
      if_neg (show ¬(k.key = keyBackspace ∨ k.key = keyBackspace2) from by
        push_neg
        exact ⟨n8, n127⟩),
      if_neg (show ¬(k.key ∈ navKeyCodes) from by
        simp only [navKeyCodes, List.mem_cons, List.not_mem_nil, or_false,
          not_or]
        exact hnav),
      if_neg hrune, if_neg hctrl]
  refine ⟨hlabel, ?_, ?_, ?_, ?_⟩
  · rw [hlabel]
    intro hh
    have hl := congrArg String.length hh
    rw [String.length_append, String.length_append] at hl
    have ha : String.length "Key[" = 4 := rfl
    have hb : String.length "]" = 1 := rfl
    have hc : String.length "" = 0 := rfl
    rw [ha, hb, hc] at hl
    omega
  · rw [step_key_eq, stepKey_escCount, exitUpdate_escCount,
      if_neg (show ¬(k.key = keyEscape) from n27)]
  · rw [step_key_eq, stepKey_enterCount, exitUpdate_enterCount,
      if_neg (show ¬(k.key = keyEnter) from n13)]
  · rw [step_key_eq, stepKey_spaceCount, exitUpdate_spaceCount,
      if_neg (show ¬(k.key = keyRune ∧ k.rn = ' ') from
        fun hh => hrune hh.1)]

/-- Witness for C6: the unrecognized code 500. -/
theorem C6_unknown_total_witness :
    labelFromEvent { key := 500, mods := 0, rn := ' ' }
      = "Key[" ++ toString (500 : Nat) ++ "]" :=
  (C6_unknown_total initKeys 40 "09:00:00" initialSession
    { key := 500, mods := 0, rn := ' ' }
    (by decide) (by decide) (by decide)).1

/-! ### Claim C7 (amended) -/

/-- C7 counterexample: the Backspace entry's label field is 9 characters, not
the fixed width 7 the claim states. -/
theorem C7_label_width_cex :
    (step initKeys 100 "12:00:00" initialSession
        (Event.key { key := keyBackspace, mods := 0, rn := ' ' })).st.logs
      = ["12:00:00 | Backspace | Code=  8 | Mods=None"]
    ∧ (padRightGo "Backspace" 7).length = 9
    ∧ ¬((padRightGo "Backspace" 7).length = 7) := by decide

/-- C7 (amended): every appended entry is the formatted line holding the
timestamp, the label right-padded with spaces to a minimum width of 7 (labels
longer than 7 keep their full length, untruncated), the code left-padded to a
minimum width of 3, and the modifier summary. -/
theorem C7_log_entry_format (keys : List Key) (h : Nat) (ts : String)
    (st : Session) (k : EventKey)
    (hnt : (step keys h ts st (Event.key k)).terminated = false) :
    (step keys h ts st (Event.key k)).st.logs <:+
        st.logs ++ [formatEntry ts (labelFromEvent k) k.key (modString k.mods)]
    ∧ (∀ s : String, formatEntry ts s k.key (modString k.mods)
        = ts ++ " | " ++ padRightGo s 7 ++ " | Code="
          ++ padLeftGo (toString k.key) 3 ++ " | Mods=" ++ modString k.mods)
    ∧ (∀ s : String, (padRightGo s 7).length = max 7 s.length)
    ∧ (∀ s : String, ∃ t, padRightGo s 7 = s ++ t)
    ∧ (∀ s : String, ∃ t, padLeftGo s 3 = t ++ s) := by
  simp only [step_key_eq] at hnt ⊢
  refine ⟨?_, fun s => rfl, fun s => padRightGo_length s 7,
    fun s => ⟨_, rfl⟩, fun s => ⟨_, rfl⟩⟩
  rw [(stepKey_not_term keys h ts st k hnt).1]
  exact trimLogs_suffix _ _ _

/-- Witness for C7 at a concrete rune event. -/
theorem C7_log_entry_format_witness :
    (step initKeys 100 "08:00:00" initialSession
        (Event.key { key := keyRune, mods := 0, rn := 'a' })).st.logs <:+
      initialSession.logs
        ++ [formatEntry "08:00:00"
            (labelFromEvent { key := keyRune, mods := 0, rn := 'a' })
            keyRune (modString 0)] :=
  (C7_log_entry_format initKeys 100 "08:00:00" initialSession
    { key := keyRune, mods := 0, rn := 'a' } (by decide)).1

/-! ### Claim C10 -/

/-- C10: control codes coinciding with named keys take precedence: code 13 is
labeled "Enter" (not "M") and increments the Enter counter, codes 8 and 9 are
labeled "Backspace" and "Tab" (not "H" and "I"), and each of the three still
marks Ctrl pressed through the control-code range test. -/
theorem C10_ctrl_precedence (st : Session) (m : Nat) (c : Char) :
    labelFromEvent { key := keyEnter, mods := m, rn := c } = "Enter"
    ∧ labelFromEvent { key := keyBackspace, mods := m, rn := c } = "Backspace"
    ∧ labelFromEvent { key := keyTab, mods := m, rn := c } = "Tab"
    ∧ labelFromEvent { key := keyEnter, mods := m, rn := c } ≠ "M"
    ∧ labelFromEvent { key := keyBackspace, mods := m, rn := c } ≠ "H"
    ∧ labelFromEvent { key := keyTab, mods := m, rn := c } ≠ "I"
    ∧ (exitUpdate st { key := keyEnter, mods := m, rn := c }).enterCount
        = st.enterCount + 1
    ∧ "Ctrl" ∈ (markPressed st { key := keyEnter, mods := m, rn := c }).pressed
    ∧ "Ctrl" ∈ (markPressed st
        { key := keyBackspace, mods := m, rn := c }).pressed
    ∧ "Ctrl" ∈ (markPressed st { key := keyTab, mods := m, rn := c }).pressed := by
  refine ⟨rfl, rfl, rfl, ?_, ?_, ?_, rfl, ?_, ?_, ?_⟩
  · show "Enter" ≠ "M"
    decide
  · show "Backspace" ≠ "H"
    decide
  · show "Tab" ≠ "I"
    decide
  · rw [mem_markPressed]
    have hr : keyCtrlA ≤ (13 : Nat) ∧ (13 : Nat) ≤ keyCtrlZ := by decide
    exact Or.inr (Or.inr (Or.inl ⟨Or.inr hr, rfl⟩))
  · rw [mem_markPressed]
    have hr : keyCtrlA ≤ (8 : Nat) ∧ (8 : Nat) ≤ keyCtrlZ := by decide
    exact Or.inr (Or.inr (Or.inl ⟨Or.inr hr, rfl⟩))
  · rw [mem_markPressed]
    have hr : keyCtrlA ≤ (9 : Nat) ∧ (9 : Nat) ≤ keyCtrlZ := by decide
    exact Or.inr (Or.inr (Or.inl ⟨Or.inr hr, rfl⟩))

/-! ### Claim C2 (amended) -/

/-- A plain letter event (rune 'a'): touches no exit counter. -/
def runeAEv : EventKey := { key := keyRune, mods := 0, rn := 'a' }

/-- One loop input carrying a rune-'a' event at height `H`. -/
def runeAInput (H : Nat) (ts : String) : Event × String × Nat :=
  (Event.key runeAEv, ts, H)

/-- The log entry a rune-'a' event appends. -/
def runeAEntry (ts : String) : String := formatEntry ts "A" keyRune "None"

lemma step_runeA_terminated (H : Nat) (t : String) (st : Session) :
    (step initKeys H t st (Event.key runeAEv)).terminated = false := rfl

lemma step_runeA_logs (H : Nat) (t : String) (st : Session) :
    (step initKeys H t st (Event.key runeAEv)).st.logs
      = trimLogs initKeys H (st.logs ++ [runeAEntry t]) := rfl

lemma sepYOf_initKeys : sepYOf initKeys = 35 := rfl

lemma runList_runeA (H : Nat) (h37 : 37 ≤ H) :
    ∀ (tss : List String) (st : Session), st.logs.length ≤ H - 36 →
      (runList initKeys st (tss.map (runeAInput H))).2 = false
      ∧ (runList initKeys st (tss.map (runeAInput H))).1.logs
          = lastN (H - 36) (st.logs ++ tss.map runeAEntry) := by
  intro tss
  induction tss with
  | nil =>
    intro st hst
    refine ⟨rfl, ?_⟩
    simp only [List.map_nil, List.append_nil, runList_nil]
    exact (lastN_of_le hst).symm
  | cons t rest ih =>
    intro st hst
    simp only [List.map_cons, runeAInput]
    rw [runList_cons, step_runeA_terminated]
    simp only [Bool.false_eq_true, if_false]
    have hlogs1 : (step initKeys H t st (Event.key runeAEv)).st.logs
        = lastN (H - 36) (st.logs ++ [runeAEntry t]) := by
      rw [step_runeA_logs,
        trimLogs_eq_lastN initKeys H _ (by rw [sepYOf_initKeys]; omega)]
      have hn : ((H : Int) - ((sepYOf initKeys : Nat) : Int) - 1).toNat
          = H - 36 := by
        rw [sepYOf_initKeys]
        omega
      rw [hn]
    have hlen1 : (step initKeys H t st (Event.key runeAEv)).st.logs.length
        ≤ H - 36 := by
      rw [hlogs1, lastN_length]
      omega
    obtain ⟨hterm2, hlogs2⟩ :=
      ih (step initKeys H t st (Event.key runeAEv)).st hlen1
    refine ⟨hterm2, ?_⟩
    rw [hlogs2, hlogs1, lastN_append_lastN]
    congr 1
    simp [List.append_assoc]

/-- C2 counterexample: the separator row of the fixed layout is 35, not 36,
so at height 40 the capacity below the separator is 4, not 40 - 37 = 3. -/
theorem C2_sep_row_cex :
    sepYOf initKeys = 35 ∧ ¬(sepYOf initKeys = 36)
    ∧ (40 : Int) - (sepYOf initKeys : Int) - 1 = 4
    ∧ ¬((40 : Int) - (sepYOf initKeys : Int) - 1 = (40 : Int) - 37) := by
  decide

/-- C2 (amended): with the fixed layout the separator sits at row 35 (the
keyboard occupies rows 0..34) and the log capacity at height H is H - 36;
appending H - 36 + 3 entries one per key event leaves exactly H - 36 entries
in the buffer, the oldest three dropped. -/
theorem C2_capacity (H : Nat) (tss : List String) (h37 : 37 ≤ H)
    (hlen : tss.length = (H - 36) + 3) :
    sepYOf initKeys = 35
    ∧ (runList initKeys initialSession (tss.map (runeAInput H))).2 = false
    ∧ (runList initKeys initialSession (tss.map (runeAInput H))).1.logs
        = (tss.map runeAEntry).drop 3
    ∧ (runList initKeys initialSession (tss.map (runeAInput H))).1.logs.length
        = H - 36 := by
  obtain ⟨hterm, hlogs⟩ :=
    runList_runeA H h37 tss initialSession (by simp [initialSession])
  have hml : (tss.map runeAEntry).length = (H - 36) + 3 := by simp [hlen]
  refine ⟨rfl, hterm, ?_, ?_⟩
  · rw [hlogs]
    show lastN (H - 36) ([] ++ tss.map runeAEntry) = _
    rw [List.nil_append]
    unfold lastN
    rw [hml]
    congr 1
    omega
  · rw [hlogs]
    show (lastN (H - 36) ([] ++ tss.map runeAEntry)).length = _
    rw [List.nil_append, lastN_length, hml]
    omega

/-- Witness for C2 at height 40 (capacity 4) with seven entries. -/
theorem C2_capacity_witness :
    (runList initKeys initialSession
        ((["t1", "t2", "t3", "t4", "t5", "t6", "t7"]).map (runeAInput 40))).1.logs
      = ((["t1", "t2", "t3", "t4", "t5", "t6", "t7"]).map runeAEntry).drop 3 :=
  (C2_capacity 40 ["t1", "t2", "t3", "t4", "t5", "t6", "t7"] (by decide)
    (by decide)).2.2.1

/-! ### Claim C3 -/

/-- C3: over any event sequence from the initial session the three exit
counters are non-decreasing and never exceed 5; the run reports termination
exactly when one of them has reached 5 (a still-running session has every
counter at most 4, so termination never happens earlier); each counter
changes only on its own designated input (Escape / Enter / space rune), and
then by exactly one; and a resize changes no counter. -/
theorem C3_exit_counters (pre post : List (Event × String × Nat)) :
    ((runList initKeys initialSession pre).1.escCount
        ≤ (runList initKeys initialSession (pre ++ post)).1.escCount
      ∧ (runList initKeys initialSession pre).1.enterCount
        ≤ (runList initKeys initialSession (pre ++ post)).1.enterCount
      ∧ (runList initKeys initialSession pre).1.spaceCount
        ≤ (runList initKeys initialSession (pre ++ post)).1.spaceCount)
    ∧ ((runList initKeys initialSession (pre ++ post)).1.escCount ≤ 5
      ∧ (runList initKeys initialSession (pre ++ post)).1.enterCount ≤ 5
      ∧ (runList initKeys initialSession (pre ++ post)).1.spaceCount ≤ 5)
    ∧ ((runList initKeys initialSession (pre ++ post)).2 = true ↔
        ((runList initKeys initialSession (pre ++ post)).1.escCount = 5
          ∨ (runList initKeys initialSession (pre ++ post)).1.enterCount = 5
          ∨ (runList initKeys initialSession (pre ++ post)).1.spaceCount = 5))
    ∧ ((runList initKeys initialSession (pre ++ post)).2 = false →
        ((runList initKeys initialSession (pre ++ post)).1.escCount ≤ 4
          ∧ (runList initKeys initialSession (pre ++ post)).1.enterCount ≤ 4
          ∧ (runList initKeys initialSession (pre ++ post)).1.spaceCount ≤ 4))
    ∧ (∀ (st : Session) (h : Nat) (ts : String) (k : EventKey),
        ((step initKeys h ts st (Event.key k)).st.escCount ≠ st.escCount →
          k.key = keyEscape
          ∧ (step initKeys h ts st (Event.key k)).st.escCount
            = st.escCount + 1)
        ∧ ((step initKeys h ts st (Event.key k)).st.enterCount
              ≠ st.enterCount →
          k.key = keyEnter
          ∧ (step initKeys h ts st (Event.key k)).st.enterCount
            = st.enterCount + 1)
        ∧ ((step initKeys h ts st (Event.key k)).st.spaceCount
              ≠ st.spaceCount →
          (k.key = keyRune ∧ k.rn = ' ')
          ∧ (step initKeys h ts st (Event.key k)).st.spaceCount
            = st.spaceCount + 1))
    ∧ (∀ (st : Session) (h : Nat) (ts : String),
        (step initKeys h ts st Event.resize).st = st) := by
  have hinit : initialSession.escCount ≤ 4 ∧ initialSession.enterCount ≤ 4
      ∧ initialSession.spaceCount ≤ 4 := by decide
  have hpre := runList_counters initKeys pre initialSession hinit.1 hinit.2.1
    hinit.2.2
  have hfull := runList_counters initKeys (pre ++ post) initialSession hinit.1
    hinit.2.1 hinit.2.2
  refine ⟨?_, hfull.2.1, hfull.2.2.1, hfull.2.2.2, ?_, fun st h ts => rfl⟩
  · rw [runList_append]
    cases hp : (runList initKeys initialSession pre).2
    · simp only [Bool.false_eq_true, if_false]
      have hle4 := hpre.2.2.2 hp
      exact (runList_counters initKeys post _ hle4.1 hle4.2.1 hle4.2.2).1
    · simp only [eq_self_iff_true, if_true]
      exact ⟨le_refl _, le_refl _, le_refl _⟩
  · intro st h ts k
    refine ⟨?_, ?_, ?_⟩
    · intro hne
      rw [step_key_eq, stepKey_escCount, exitUpdate_escCount] at hne ⊢
      by_cases hk : k.key = keyEscape
      · exact ⟨hk, by rw [if_pos hk]⟩
      · rw [if_neg hk] at hne
        exact absurd rfl hne
    · intro hne
      rw [step_key_eq, stepKey_enterCount, exitUpdate_enterCount] at hne ⊢
      by_cases hk : k.key = keyEnter
      · exact ⟨hk, by rw [if_pos hk]⟩
      · rw [if_neg hk] at hne
        exact absurd rfl hne
    · intro hne
      rw [step_key_eq, stepKey_spaceCount, exitUpdate_spaceCount] at hne ⊢
      by_cases hk : k.key = keyRune ∧ k.rn = ' '
      · exact ⟨hk, by rw [if_pos hk]⟩
      · rw [if_neg hk] at hne
        exact absurd rfl hne

/-- Witness for C3: five Escape events terminate the session, with the
Escape counter at exactly 5. -/
theorem C3_exit_counters_witness :
    (runList initKeys initialSession
        (List.replicate 5 (Event.key escEv, "t", 40) ++ [])).2 = true :=
  (C3_exit_counters (List.replicate 5 (Event.key escEv, "t", 40)) []).2.2.1.mpr
    (by decide)

end KeyboardTester
